import Mathlib

/-!
Shallow embedding of `src/take_photo.py` (Farmware take-photo utility).

Numeric values that are Python floats are modelled as rationals (ℚ); the
angle-decomposition arithmetic of `rotate` (truncating division, `abs`,
float `%`) is exact on the modelled values.  Side-effecting paths
(camera parameter pushes, log posts, subprocess calls) are modelled as
pure functions returning explicit event traces or `Except` results.
-/

namespace TakePhoto

/-- Truncation toward zero of a rational, the semantics of Python `int(x)`
applied to a float. -/
def truncQ (q : ℚ) : ℤ := if q < 0 then ⌈q⌉ else ⌊q⌋

/-- Embeds `sign = -1 if angle < 0 else 1` (take_photo.py line 41). -/
def signOf (a : ℚ) : ℤ := if a < 0 then -1 else 1

/-- Embeds `turns = -int(angle / 90.)` (take_photo.py line 42). -/
def turns0 (a : ℚ) : ℤ := -(truncQ (a / 90))

/-- Embeds `remainder = abs(angle) % 90` (take_photo.py line 42); Python
float `%` with positive modulus is `x - 90 * floor(x / 90)`. -/
def remainder (a : ℚ) : ℚ := |a| - 90 * (⌊|a| / 90⌋ : ℤ)

/-- Embeds `if remainder > 45: turns -= 1 * sign` (take_photo.py line 43). -/
def turnsFinal (a : ℚ) : ℤ :=
  if remainder a > 45 then turns0 a - signOf a else turns0 a

/-- Embeds `angle += 90 * turns` (take_photo.py line 44): the residual angle
passed to the affine rotation. -/
def residual (a : ℚ) : ℚ := a + 90 * (turnsFinal a : ℚ)

/-- A pixel: three colour channels, values modelled as rationals. -/
abbrev Pix := Fin 3 → ℚ

/-- An image: height × width grid of pixels (row index first, as in the
`numpy` array `image.shape = (height, width, 3)`). -/
structure Image where
  height : ℕ
  width : ℕ
  pix : ℕ → ℕ → Pix

/-- Embeds `np.rot90(image, k=turns)`: numpy reduces `k` modulo 4 and
rotates counterclockwise that many quarter turns. -/
def rot90 (k : ℤ) (img : Image) : Image :=
  let m := k % 4
  if m = 0 then img
  else if m = 1 then
    ⟨img.width, img.height, fun i j => img.pix j (img.width - 1 - i)⟩
  else if m = 2 then
    ⟨img.height, img.width,
      fun i j => img.pix (img.height - 1 - i) (img.width - 1 - j)⟩
  else
    ⟨img.width, img.height, fun i j => img.pix (img.height - 1 - j) i⟩

/-- Interface to the external trigonometry used by
`cv2.getRotationMatrix2D` (degrees): an implementation supplies cosine and
sine. -/
structure Trig where
  cos : ℚ → ℚ
  sin : ℚ → ℚ

/-- A 2×3 affine matrix `[[a, b, c], [d, e, f]]`. -/
structure Aff where
  a : ℚ
  b : ℚ
  c : ℚ
  d : ℚ
  e : ℚ
  f : ℚ

/-- Embeds `cv2.getRotationMatrix2D((cx, cy), angle, scale)` with the
documented entries `[[α, β, (1-α)·cx - β·cy], [-β, α, β·cx + (1-α)·cy]]`,
`α = scale·cos angle`, `β = scale·sin angle`. -/
def getRotationMatrix2D (T : Trig) (cx cy angle scale : ℚ) : Aff :=
  let al := scale * T.cos angle
  let be := scale * T.sin angle
  ⟨al, be, (1 - al) * cx - be * cy, -be, al, be * cx + (1 - al) * cy⟩

/-- Inversion of a 2×3 affine transform, as `cv2.warpAffine` performs
internally (the flag `WARP_INVERSE_MAP` is not passed in the source). -/
def invertAffine (M : Aff) : Aff :=
  let det := M.a * M.e - M.b * M.d
  if det = 0 then ⟨0, 0, 0, 0, 0, 0⟩
  else ⟨M.e / det, -M.b / det, (M.b * M.f - M.e * M.c) / det,
        -M.d / det, M.a / det, (M.d * M.c - M.a * M.f) / det⟩

/-- Pixel lookup with the default `BORDER_CONSTANT` value 0 outside the
image. -/
def pxAt (img : Image) (y x : ℤ) (ch : Fin 3) : ℚ :=
  if 0 ≤ y ∧ y < (img.height : ℤ) ∧ 0 ≤ x ∧ x < (img.width : ℤ) then
    img.pix y.toNat x.toNat ch
  else 0

/-- Bilinear sampling of the source image at rational coordinates, the
default interpolation of `cv2.warpAffine`. -/
def sample (img : Image) (fx fy : ℚ) (ch : Fin 3) : ℚ :=
  let x0 : ℤ := ⌊fx⌋
  let y0 : ℤ := ⌊fy⌋
  let ax := fx - (x0 : ℚ)
  let ay := fy - (y0 : ℚ)
  (1 - ay) * ((1 - ax) * pxAt img y0 x0 ch + ax * pxAt img y0 (x0 + 1) ch)
    + ay * ((1 - ax) * pxAt img (y0 + 1) x0 ch
            + ax * pxAt img (y0 + 1) (x0 + 1) ch)

/-- Embeds `cv2.warpAffine(image, matrix, (width, height))`: output size is
the requested `(dw, dh)`, each output pixel sampled at the inverse-mapped
source coordinate. -/
def warpAffine (src : Image) (M : Aff) (dw dh : ℕ) : Image :=
  let Mi := invertAffine M
  ⟨dh, dw, fun i j ch =>
    sample src (Mi.a * (j : ℚ) + Mi.b * (i : ℚ) + Mi.c)
               (Mi.d * (j : ℚ) + Mi.e * (i : ℚ) + Mi.f) ch⟩

/-- Embeds `rotate(image)` (take_photo.py lines 38-48), with the
calibration angle (read there from the environment) as an explicit
argument and the trigonometry as an explicit interface. -/
def rotate (T : Trig) (angle : ℚ) (img : Image) : Image :=
  let turns := turnsFinal angle
  let ares := residual angle
  let img2 := rot90 turns img
  let M := getRotationMatrix2D T ((img2.width / 2 : ℕ) : ℚ)
            ((img2.height / 2 : ℕ) : ℚ) ares 1
  warpAffine img2 M img2.width img2.height

/-- Two images agree in dimensions and in every in-range pixel. -/
def sameImage (x y : Image) : Prop :=
  x.height = y.height ∧ x.width = y.width ∧
  ∀ i j ch, i < x.height → j < x.width → x.pix i j ch = y.pix i j ch

/-- Embeds `farmware_api_url` (take_photo.py lines 16-19):
`int(os.getenv('FARMBOT_OS_VERSION', '0.0.0')[0])` reads the FIRST
character of the version string; `none` models the exception raised when
the string is empty (IndexError) or its first character is not a digit
(ValueError). -/
def farmware_api_url (osVer : Option String) (baseUrl : String) :
    Option String :=
  match (osVer.getD "0.0.0").data with
  | [] => none
  | c :: _ =>
    if c.isDigit then
      some (if 5 < c.toNat - 48 then baseUrl ++ "api/v1/" else baseUrl)
    else none

/-- Value of a digit run, most significant first. -/
def digitsToNat (l : List Char) : ℕ :=
  l.foldl (fun n c => 10 * n + (c.toNat - 48)) 0

/-- Modelled from the spec: the platform's major version — the leading
decimal-digit run of the version string read as a number (the code itself
never computes this; it reads only the first character). -/
def majorVersionOf (s : String) : Option ℕ :=
  let ds := s.data.takeWhile Char.isDigit
  if ds.isEmpty then none else some (digitsToNat ds)

/-- Environment slice read by `log`: `FARMWARE_URL`, `FARMWARE_TOKEN`,
`FARMBOT_OS_VERSION` (each possibly unset). -/
structure LogEnv where
  farmwareUrl : Option String
  farmwareToken : Option String
  osVersion : Option String

/-- The structured message posted by `log`
(`{"kind": "send_message", "args": {...}}`). -/
structure Payload where
  kind : String
  message : String
  message_type : String
deriving DecidableEq

/-- Outcome of the `requests.post` call: a response with some HTTP status,
or a raised transport-level exception. -/
inductive PostOutcome where
  | ok (status : ℕ)
  | raised (err : String)

/-- Observable result of a completed `log` call. -/
inductive LogResult where
  | printed (msg : String)
  | posted (url : String) (payload : Payload) (auth : String)
deriving DecidableEq

/-- Embeds `log(message, message_type)` (take_photo.py lines 21-36).
`Except.error` models an uncaught Python exception propagating to the
caller: the `try` there guards only the `FARMWARE_URL` lookup, so a
missing token (KeyError), a bad version string (ValueError) and a raising
POST all escape. -/
def log (env : LogEnv) (message mtype : String) (post : PostOutcome) :
    Except String LogResult :=
  match env.farmwareUrl with
  | none => .ok (.printed message)
  | some base =>
    let logMessage := "[take-photo] " ++ message
    match env.farmwareToken with
    | none => .error "KeyError: FARMWARE_TOKEN"
    | some tok =>
      match farmware_api_url env.osVersion base with
      | none => .error "ValueError: FARMBOT_OS_VERSION"
      | some apiUrl =>
        match post with
        | .raised e => .error e
        | .ok _ =>
          .ok (.posted (apiUrl ++ "celery_script")
                ⟨"send_message", logMessage, mtype⟩ ("bearer " ++ tok))

/-- The camera properties pushed by `usb_camera_photo`. -/
inductive CamProp where
  | frameWidth | frameHeight | brightness | contrast | saturation
  | hue | gain
deriving DecidableEq

/-- Events of the parameter-setup section: a `camera.set(prop, value)`
call, or an informational `log(msg, 'info')`. -/
inductive CamEv where
  | set (p : CamProp) (v : ℚ)
  | info (msg : String)
deriving DecidableEq

/-- The seven configuration values read via `get_config_value`
(take_photo.py lines 86-92). -/
structure CaptureConfig where
  brightness : ℚ
  contrast : ℚ
  saturation : ℚ
  hue : ℚ
  gain : ℚ
  width : ℤ
  height : ℤ

/-- Embeds the parameter-setup section of `usb_camera_photo`
(take_photo.py lines 94-123) as the ordered trace of `camera.set` calls
and informational log events it performs. -/
def setupCameraParams (cfg : CaptureConfig) : List CamEv :=
  (if cfg.width ≠ 640 then
     [.set .frameWidth (cfg.width : ℚ),
      .info ("Resolution width:" ++ toString cfg.width)]
   else [.set .frameWidth 640]) ++
  (if cfg.height ≠ 480 then
     [.set .frameHeight (cfg.height : ℚ),
      .info ("Resolution height:" ++ toString cfg.height)]
   else [.set .frameHeight 480]) ++
  (if cfg.brightness ≠ 10 then
     [.set .brightness cfg.brightness, .info "set brightness"] else []) ++
  (if cfg.contrast ≠ 10 then
     [.set .contrast cfg.contrast, .info "set contrast"] else []) ++
  (if cfg.saturation ≠ 10 then
     [.set .saturation cfg.saturation, .info "set saturation"] else []) ++
  (if cfg.hue ≠ 10 then
     [.set .hue cfg.hue, .info "set hue"] else []) ++
  (if cfg.gain ≠ 10 then
     [.set .gain cfg.gain, .info "set gain"] else [])

/-- Tests whether an event is a `camera.set` of the given property. -/
def isSetEv (p : CamProp) : CamEv → Bool
  | .set q _ => decide (q = p)
  | .info _ => false

/-- Tests whether an event is an informational log. -/
def isInfoEv : CamEv → Bool
  | .info _ => true
  | .set _ _ => false

/-- Embeds the output section of `usb_camera_photo` after a successful
frame read (take_photo.py lines 137-148): `angleOpt = none` models the
`except:` branch (calibration angle missing from the environment or
unparsable, so `rotate` raised); `some a` models a successful `rotate`
with parsed angle `a`, after which the `else:` branch prepends
`'rotated_'` to the filename. -/
def saveOutput (T : Trig) (angleOpt : Option ℚ) (img : Image)
    (filename : String) : String × Image :=
  match angleOpt with
  | none => (filename, img)
  | some a => ("rotated_" ++ filename, rotate T a img)

/-- Outcome of `subprocess.call(["raspistill", ...])`: an exit code, or
the OSError raised when the utility is absent. -/
inductive CallOutcome where
  | ret (code : ℤ)
  | osError

/-- Observable events of `rpi_camera_photo`: a console print or a
`log(msg, mtype)` call. -/
inductive RunEv where
  | printed (msg : String)
  | logged (msg : String) (mtype : String)
deriving DecidableEq

/-- Embeds `rpi_camera_photo` (take_photo.py lines 152-164) as the trace
of print/log events it produces for each outcome of the subprocess
call. -/
def rpi_camera_photo (path : String) (outcome : CallOutcome) :
    List RunEv :=
  match outcome with
  | .osError => [.logged "Raspberry Pi Camera not detected." "error"]
  | .ret code =>
    if code = 0 then [.printed ("Image saved: " ++ path)]
    else [.logged "Problem getting image." "error"]

/-- A trigonometry instance with `cos 0 = 1` and `sin 0 = 0`, for
concrete evaluations. -/
def trig0 : Trig := ⟨fun _ => 1, fun _ => 0⟩

/-- A concrete 2×3 image (height 2, width 3), all pixels zero. -/
def img23 : Image := ⟨2, 3, fun _ _ _ => 0⟩

/-- The configuration in which every parameter equals its sentinel
default. -/
def cfg0 : CaptureConfig := ⟨10, 10, 10, 10, 10, 640, 480⟩

/-- A fully configured logging environment. -/
def env0 : LogEnv := ⟨some "http://farmbot/", some "token123", some "8.0.0"⟩

/-- The unconfigured logging environment (no remote endpoint). -/
def env1 : LogEnv := ⟨none, none, none⟩

/-- Dimensions of `rot90` depend only on the parity of `k`: even `k`
preserves them, odd `k` swaps them. -/
theorem rot90_dims (k : ℤ) (img : Image) :
    (rot90 k img).height = (if k % 2 = 0 then img.height else img.width) ∧
    (rot90 k img).width = (if k % 2 = 0 then img.width else img.height) := by
  have h4 : k % 4 = 0 ∨ k % 4 = 1 ∨ k % 4 = 2 ∨ k % 4 = 3 := by omega
  rcases h4 with h | h | h | h
  · have hp : k % 2 = 0 := by omega
    simp [rot90, h, hp]
  · have hp : ¬(k % 2 = 0) := by omega
    simp [rot90, h, hp]
  · have hp : k % 2 = 0 := by omega
    simp [rot90, h, hp]
  · have hp : ¬(k % 2 = 0) := by omega
    simp [rot90, h, hp]

/-- C5: in the USB output path a successful orientation correction writes
the corrected frame under the `rotated_`-prefixed filename, a failed one
writes the uncorrected frame under the plain filename, and the filename is
prefixed if and only if the correction was applied. -/
theorem filename_rotated_iff (T : Trig) (a : ℚ) (opt : Option ℚ)
    (img : Image) (f : String) :
    saveOutput T none img f = (f, img) ∧
    saveOutput T (some a) img f = ("rotated_" ++ f, rotate T a img) ∧
    ((saveOutput T opt img f).1 = "rotated_" ++ f ↔ opt ≠ none) := by
  refine ⟨rfl, rfl, ?_⟩
  cases opt with
  | none =>
    simp only [saveOutput, ne_eq, not_true_eq_false, iff_false]
    intro h
    have hlen := congrArg String.length h
    rw [String.length_append] at hlen
    have h8 : "rotated_".length = 8 := rfl
    omega
  | some x => simp [saveOutput]

/-- C9: the board-camera path prints a success message with the exact
output path on exit status 0, reports exactly one "Problem getting
image." error on a non-zero exit status, and reports a distinct "camera
not detected" error when the capture utility is unavailable. -/
theorem rpi_photo_events (path : String) (c : ℤ) (hc : c ≠ 0) :
    rpi_camera_photo path (.ret 0) = [.printed ("Image saved: " ++ path)] ∧
    rpi_camera_photo path (.ret c) =
      [.logged "Problem getting image." "error"] ∧
    rpi_camera_photo path .osError =
      [.logged "Raspberry Pi Camera not detected." "error"] := by
  refine ⟨rfl, ?_, rfl⟩
  simp [rpi_camera_photo, hc]

/-- Witness for `rpi_photo_events` at path `"x.jpg"` and exit code 1. -/
theorem rpi_photo_events_witness :
    rpi_camera_photo "x.jpg" (.ret 0) =
      [.printed ("Image saved: " ++ "x.jpg")] ∧
    rpi_camera_photo "x.jpg" (.ret 1) =
      [.logged "Problem getting image." "error"] ∧
    rpi_camera_photo "x.jpg" .osError =
      [.logged "Raspberry Pi Camera not detected." "error"] :=
  rpi_photo_events "x.jpg" 1 (by decide)

/-- C6 counterexample: with a remote endpoint configured, an exception
raised by the status-report POST propagates out of `log` as an error
rather than being silently dropped. -/
theorem post_error_surfaces :
    log env0 "message" "info" (.raised "ConnectionError") =
      .error "ConnectionError" := rfl

/-- C6 (amended): the HTTP response status of the POST never influences
the result of `log` (an error response is silently ignored), but an
exception raised by the POST itself propagates to the caller of `log`. -/
theorem log_post_outcome_independence (env : LogEnv) (m t : String) :
    (∀ s1 s2 : ℕ, log env m t (.ok s1) = log env m t (.ok s2)) ∧
    (∀ base tok u e, env.farmwareUrl = some base →
      env.farmwareToken = some tok →
      farmware_api_url env.osVersion base = some u →
      log env m t (.raised e) = .error e) := by
  constructor
  · intro s1 s2
    unfold log
    cases env.farmwareUrl with
    | none => rfl
    | some base =>
      cases env.farmwareToken with
      | none => rfl
      | some tok =>
        cases farmware_api_url env.osVersion base <;> rfl
  · intro base tok u e h1 h2 h3
    simp [log, h1, h2, h3]

/-- Witness for `log_post_outcome_independence` in the fully configured
environment. -/
theorem log_post_outcome_independence_witness :
    log env0 "m" "t" (.ok 200) = log env0 "m" "t" (.ok 500) ∧
    log env0 "m" "t" (.raised "boom") = .error "boom" :=
  ⟨(log_post_outcome_independence env0 "m" "t").1 200 500,
   (log_post_outcome_independence env0 "m" "t").2 "http://farmbot/"
     "token123" ("http://farmbot/" ++ "api/v1/") "boom" rfl rfl rfl⟩

/-- C8: with a remote endpoint configured (and token and version
available), `log` posts the payload
`kind = "send_message", args = (message, message_type)` with an
`Authorization: bearer token` header to `endpoint ++ "celery_script"`;
with no endpoint configured it prints the message to standard output. -/
theorem log_posts_payload_shape (env : LogEnv) (m t : String) (s : ℕ)
    (base tok u : String) :
    (env.farmwareUrl = some base → env.farmwareToken = some tok →
      farmware_api_url env.osVersion base = some u →
      log env m t (.ok s) = .ok (.posted (u ++ "celery_script")
        ⟨"send_message", "[take-photo] " ++ m, t⟩ ("bearer " ++ tok))) ∧
    (env.farmwareUrl = none → ∀ p, log env m t p = .ok (.printed m)) := by
  constructor
  · intro h1 h2 h3
    simp [log, h1, h2, h3]
  · intro h1 p
    simp [log, h1]

/-- Witness for `log_posts_payload_shape`: the configured environment
`env0` and the unconfigured environment `env1`. -/
theorem log_posts_payload_shape_witness :
    log env0 "hello" "info" (.ok 200) =
      .ok (.posted (("http://farmbot/" ++ "api/v1/") ++ "celery_script")
        ⟨"send_message", "[take-photo] " ++ "hello", "info"⟩
        ("bearer " ++ "token123")) ∧
    log env1 "hello" "info" (.ok 200) = .ok (.printed "hello") :=
  ⟨(log_posts_payload_shape env0 "hello" "info" 200 "http://farmbot/"
      "token123" ("http://farmbot/" ++ "api/v1/")).1 rfl rfl rfl,
   (log_posts_payload_shape env1 "hello" "info" 200 "" "" "").2 rfl
     (.ok 200)⟩

/-- C10: whenever `log` posts, the delivered message text is
`"[take-photo] "` concatenated with the caller's message, while the
console fallback prints the caller's message without that prefix. -/
theorem log_message_text_prefixed (env : LogEnv) (m t : String)
    (p : PostOutcome) (u2 : String) (pl : Payload) (au s : String) :
    (log env m t p = .ok (.posted u2 pl au) →
      pl.message = "[take-photo] " ++ m) ∧
    (log env m t p = .ok (.printed s) → s = m) := by
  unfold log
  cases hu : env.farmwareUrl with
  | none => constructor <;> intro h <;> simp_all
  | some base =>
    cases ht : env.farmwareToken with
    | none => constructor <;> intro h <;> simp_all
    | some tok =>
      cases ha : farmware_api_url env.osVersion base with
      | none => constructor <;> intro h <;> simp_all
      | some u3 =>
        cases p with
        | raised e => constructor <;> intro h <;> simp_all
        | ok s2 =>
          constructor <;> intro h
          · have h2 : (⟨"send_message", "[take-photo] " ++ m, t⟩ : Payload)
                = pl := by simp_all
            exact (congrArg Payload.message h2).symm
          · simp_all

/-- Witness for `log_message_text_prefixed` at the configured environment
`env0` and the unconfigured environment `env1`. -/
theorem log_message_text_prefixed_witness :
    (Payload.mk "send_message" ("[take-photo] " ++ "hi") "info").message =
      "[take-photo] " ++ "hi" ∧
    ("hi" : String) = "hi" :=
  ⟨(log_message_text_prefixed env0 "hi" "info" (.ok 200)
      (("http://farmbot/" ++ "api/v1/") ++ "celery_script")
      ⟨"send_message", "[take-photo] " ++ "hi", "info"⟩
      ("bearer " ++ "token123") "x").1 rfl,
   (log_message_text_prefixed env1 "hi" "info" (.ok 200) "" ⟨"", "", ""⟩
      "" "hi").2 rfl⟩

/-- C4 counterexample: for version string "10.0.0" the major version is
10 > 5, yet the code (which reads only the first character, here '1')
returns the bare base URL instead of the versioned one. -/
theorem api_url_ignores_second_digit :
    majorVersionOf "10.0.0" = some 10 ∧ (5 : ℕ) < 10 ∧
    farmware_api_url (some "10.0.0") "B/" = some "B/" ∧
    ("B/" : String) ≠ "B/" ++ "api/v1/" :=
  ⟨by decide, by norm_num, rfl, by decide⟩

/-- C4 (amended): the endpoint URL is `base ++ "api/v1/"` exactly when
the digit value of the FIRST character of the version string (default
"0.0.0") exceeds 5, bare `base` otherwise; a non-digit first character
makes the computation fail; and when the version starts with a single
digit followed by a non-digit (the usual `X.Y.Z` form with one-digit
major), that first digit is the major version, so the original claim
holds on such strings. -/
theorem api_url_first_char_rule (osv : Option String) (base : String)
    (c : Char) (rest : List Char)
    (hdata : (osv.getD "0.0.0").data = c :: rest) :
    (c.isDigit = true →
      farmware_api_url osv base =
        some (if 5 < c.toNat - 48 then base ++ "api/v1/" else base)) ∧
    (c.isDigit = false → farmware_api_url osv base = none) ∧
    (∀ d rs, c.isDigit = true → rest = d :: rs → d.isDigit = false →
      majorVersionOf (osv.getD "0.0.0") = some (c.toNat - 48)) := by
  refine ⟨?_, ?_, ?_⟩
  · intro hd
    simp [farmware_api_url, hdata, hd]
  · intro hd
    simp [farmware_api_url, hdata, hd]
  · intro d rs hd hrest hnd
    subst hrest
    simp [majorVersionOf, hdata, hd, hnd, digitsToNat]

/-- Witness for `api_url_first_char_rule` at version "8.0.0". -/
theorem api_url_first_char_rule_witness :
    farmware_api_url (some "8.0.0") "B/" =
      some (if 5 < ('8' : Char).toNat - 48 then "B/" ++ "api/v1/"
            else "B/") ∧
    majorVersionOf ((some "8.0.0").getD "0.0.0") =
      some (('8' : Char).toNat - 48) :=
  ⟨(api_url_first_char_rule (some "8.0.0") "B/" '8' ['.', '0', '.', '0']
      rfl).1 rfl,
   (api_url_first_char_rule (some "8.0.0") "B/" '8' ['.', '0', '.', '0']
      rfl).2.2 '.' ['0', '.', '0'] rfl rfl rfl⟩

/-- C3 counterexample: with every parameter at its sentinel default, the
resolution width is still pushed to the device (the `else` branch calls
`camera.set` with the sentinel 640), so width is not pushed "only when it
differs from its sentinel". -/
theorem width_pushed_at_sentinel :
    cfg0.width = 640 ∧
    CamEv.set CamProp.frameWidth 640 ∈ setupCameraParams cfg0 :=
  ⟨rfl, by decide⟩

/-- C3 (amended): the five colour parameters are pushed to the device
exactly when they differ from the sentinel 10.0; width and height are
always pushed (with the configured value, which in the sentinel case is
the sentinel itself); and the number of informational events equals the
number of parameters differing from their sentinel, i.e. an info event is
reported exactly when an override is applied. -/
theorem setup_params_pushed_iff (cfg : CaptureConfig) :
    ((setupCameraParams cfg).countP (isSetEv .frameWidth) = 1) ∧
    ((setupCameraParams cfg).countP (isSetEv .frameHeight) = 1) ∧
    ((setupCameraParams cfg).countP (isSetEv .brightness)
       = if cfg.brightness = 10 then 0 else 1) ∧
    ((setupCameraParams cfg).countP (isSetEv .contrast)
       = if cfg.contrast = 10 then 0 else 1) ∧
    ((setupCameraParams cfg).countP (isSetEv .saturation)
       = if cfg.saturation = 10 then 0 else 1) ∧
    ((setupCameraParams cfg).countP (isSetEv .hue)
       = if cfg.hue = 10 then 0 else 1) ∧
    ((setupCameraParams cfg).countP (isSetEv .gain)
       = if cfg.gain = 10 then 0 else 1) ∧
    ((setupCameraParams cfg).countP isInfoEv
       = (if cfg.width = 640 then 0 else 1)
       + (if cfg.height = 480 then 0 else 1)
       + (if cfg.brightness = 10 then 0 else 1)
       + (if cfg.contrast = 10 then 0 else 1)
       + (if cfg.saturation = 10 then 0 else 1)
       + (if cfg.hue = 10 then 0 else 1)
       + (if cfg.gain = 10 then 0 else 1)) ∧
    (CamEv.set .frameWidth (cfg.width : ℚ) ∈ setupCameraParams cfg) ∧
    (CamEv.set .frameHeight (cfg.height : ℚ) ∈ setupCameraParams cfg) := by
  refine ⟨?_, ?_, ?_, ?_, ?_, ?_, ?_, ?_, ?_, ?_⟩
  · simp [setupCameraParams, List.countP_append,
      apply_ite (List.countP (isSetEv CamProp.frameWidth)),
      List.countP_cons, isSetEv, isInfoEv, ite_not]
  · simp [setupCameraParams, List.countP_append,
      apply_ite (List.countP (isSetEv CamProp.frameHeight)),
      List.countP_cons, isSetEv, isInfoEv, ite_not]
  · simp [setupCameraParams, List.countP_append,
      apply_ite (List.countP (isSetEv CamProp.brightness)),
      List.countP_cons, isSetEv, isInfoEv, ite_not]
  · simp [setupCameraParams, List.countP_append,
      apply_ite (List.countP (isSetEv CamProp.contrast)),
      List.countP_cons, isSetEv, isInfoEv, ite_not]
  · simp [setupCameraParams, List.countP_append,
      apply_ite (List.countP (isSetEv CamProp.saturation)),
      List.countP_cons, isSetEv, isInfoEv, ite_not]
  · simp [setupCameraParams, List.countP_append,
      apply_ite (List.countP (isSetEv CamProp.hue)),
      List.countP_cons, isSetEv, isInfoEv, ite_not]
  · simp [setupCameraParams, List.countP_append,
      apply_ite (List.countP (isSetEv CamProp.gain)),
      List.countP_cons, isSetEv, isInfoEv, ite_not]
  · simp only [setupCameraParams, List.countP_append,
      apply_ite (List.countP isInfoEv), List.countP_cons,
      List.countP_nil, isSetEv, isInfoEv]
    simp [ite_not]
  · by_cases h : cfg.width = 640 <;>
      simp [setupCameraParams, h, List.mem_append]
  · by_cases h : cfg.height = 480 <;>
      simp [setupCameraParams, h, List.mem_append]

/-- C2: the corrector computes `turns = -truncate(a / 90)` and
`remainder = abs(a) mod 90`, subtracts one extra turn in the sign
direction exactly when `remainder > 45` (a remainder of exactly 45 adds
none), and the residual affine angle `a + 90 * turns` always has
magnitude at most 45 degrees. -/
theorem turns_decomposition (a : ℚ) :
    turnsFinal a = turns0 a - (if 45 < remainder a then signOf a else 0) ∧
    |residual a| ≤ 45 := by
  constructor
  · by_cases h : remainder a > 45 <;> simp [turnsFinal, h]
  · have h90 : (0 : ℚ) < 90 := by norm_num
    have hfl : ((⌊|a| / 90⌋ : ℤ) : ℚ) ≤ |a| / 90 := Int.floor_le _
    have hfl2 : |a| / 90 < (⌊|a| / 90⌋ : ℤ) + 1 := Int.lt_floor_add_one _
    have hdiv : 90 * (|a| / 90) = |a| := by field_simp
    have hq1 : 90 * ((⌊|a| / 90⌋ : ℤ) : ℚ) ≤ |a| := by nlinarith
    have hq2 : |a| < 90 * ((⌊|a| / 90⌋ : ℤ) : ℚ) + 90 := by nlinarith
    have hr : remainder a = |a| - 90 * ((⌊|a| / 90⌋ : ℤ) : ℚ) := by
      simp [remainder]
    rcases le_or_lt 0 a with ha | ha
    · have habs : |a| = a := abs_of_nonneg ha
      have hsign : signOf a = 1 := by simp [signOf, not_lt.mpr ha]
      have htr : truncQ (a / 90) = ⌊|a| / 90⌋ := by
        have hnn : ¬(a / 90 < 0) :=
          not_lt.mpr (div_nonneg ha (by norm_num))
        simp [truncQ, hnn, habs]
      have ht0 : turns0 a = -⌊|a| / 90⌋ := by simp [turns0, htr]
      by_cases hrem : remainder a > 45
      · have htf : turnsFinal a = -⌊|a| / 90⌋ - 1 := by
          simp [turnsFinal, hrem, ht0, hsign]
        have hres : residual a
            = a + 90 * (-(((⌊|a| / 90⌋ : ℤ) : ℚ)) - 1) := by
          simp only [residual, htf]; push_cast; ring
        rw [abs_le]
        constructor <;> linarith
      · have htf : turnsFinal a = -⌊|a| / 90⌋ := by
          simp [turnsFinal, hrem, ht0]
        have hres : residual a
            = a + 90 * (-(((⌊|a| / 90⌋ : ℤ) : ℚ))) := by
          simp only [residual, htf]; push_cast; ring
        have hrem45 : remainder a ≤ 45 := not_lt.mp hrem
        rw [abs_le]
        constructor <;> linarith
    · have habs : |a| = -a := abs_of_neg ha
      have hsign : signOf a = -1 := by simp [signOf, ha]
      have htr : truncQ (a / 90) = -⌊|a| / 90⌋ := by
        have hneg : a / 90 < 0 := div_neg_of_neg_of_pos ha h90
        have hrw : a / 90 = -((-a) / 90) := by ring
        simp only [truncQ, if_pos hneg]
        rw [hrw, Int.ceil_neg, habs]
      have ht0 : turns0 a = ⌊|a| / 90⌋ := by simp [turns0, htr]
      by_cases hrem : remainder a > 45
      · have htf : turnsFinal a = ⌊|a| / 90⌋ + 1 := by
          simp [turnsFinal, hrem, ht0, hsign]
        have hres : residual a
            = a + 90 * ((((⌊|a| / 90⌋ : ℤ) : ℚ)) + 1) := by
          simp only [residual, htf]; push_cast; ring
        rw [abs_le]
        constructor <;> linarith
      · have htf : turnsFinal a = ⌊|a| / 90⌋ := by
          simp [turnsFinal, hrem, ht0]
        have hres : residual a = a + 90 * ((⌊|a| / 90⌋ : ℤ) : ℚ) := by
          simp only [residual, htf]
        have hrem45 : remainder a ≤ 45 := not_lt.mp hrem
        rw [abs_le]
        constructor <;> linarith

/-- C1 counterexample: at calibration angle 90 (inside (-180, 180]) on a
2×3 image, the output width differs from the input width — the
90°-multiple pre-rotation swaps the dimensions and the affine warp keeps
the swapped canvas. -/
theorem rotate_swaps_at_ninety :
    (-180 : ℚ) < 90 ∧ (90 : ℚ) ≤ 180 ∧
    (rotate trig0 90 img23).width ≠ img23.width := by
  refine ⟨by norm_num, by norm_num, ?_⟩
  have hturns : turnsFinal 90 = -1 := by
    norm_num [turnsFinal, remainder, turns0, truncQ, signOf, abs_of_pos]
  have hw : (rotate trig0 90 img23).width
      = (rot90 (turnsFinal 90) img23).width := rfl
  rw [hw, hturns]
  decide

/-- C1 (amended): for every angle in (-180, 180], `rotate` preserves the
input width and height when the computed number of quarter-turns is even,
and swaps them (output width = input height and vice versa) when it is
odd; in both cases the dimension pair is preserved as a multiset. -/
theorem rotate_preserves_dims_up_to_swap (T : Trig) (a : ℚ) (img : Image)
    (_h1 : -180 < a) (_h2 : a ≤ 180) :
    ((turnsFinal a) % 2 = 0 →
      (rotate T a img).width = img.width ∧
      (rotate T a img).height = img.height) ∧
    ((turnsFinal a) % 2 ≠ 0 →
      (rotate T a img).width = img.height ∧
      (rotate T a img).height = img.width) := by
  have hw : (rotate T a img).width = (rot90 (turnsFinal a) img).width :=
    rfl
  have hh : (rotate T a img).height = (rot90 (turnsFinal a) img).height :=
    rfl
  obtain ⟨e1, e2⟩ := rot90_dims (turnsFinal a) img
  constructor <;> intro hp <;> constructor <;> simp_all

/-- Witness for `rotate_preserves_dims_up_to_swap` at angle 90 (odd
number of quarter-turns) on the 2×3 image. -/
theorem rotate_dims_witness :
    (rotate trig0 90 img23).width = img23.height ∧
    (rotate trig0 90 img23).height = img23.width := by
  have hturns : turnsFinal 90 = -1 := by
    norm_num [turnsFinal, remainder, turns0, truncQ, signOf, abs_of_pos]
  exact (rotate_preserves_dims_up_to_swap trig0 90 img23 (by norm_num)
    (by norm_num)).2 (by rw [hturns]; decide)

/-- C7: at calibration angle 0 the corrector computes zero quarter-turns
and a zero residual angle, and (for any trigonometry with cos 0 = 1 and
sin 0 = 0) the warp step is the identity transform, so the output is
pixel-identical to the input. -/
theorem rotate_zero_identity (T : Trig) (img : Image)
    (hc : T.cos 0 = 1) (hs : T.sin 0 = 0) :
    turnsFinal 0 = 0 ∧ residual 0 = 0 ∧ sameImage (rotate T 0 img) img := by
  have ht : turnsFinal 0 = 0 := by
    norm_num [turnsFinal, remainder, turns0, truncQ, signOf]
  have hres : residual 0 = 0 := by
    simp [residual, ht]
  have h0 : rot90 (0 : ℤ) img = img := rfl
  have hM : getRotationMatrix2D T ((img.width / 2 : ℕ) : ℚ)
      ((img.height / 2 : ℕ) : ℚ) 0 1 = ⟨1, 0, 0, 0, 1, 0⟩ := by
    simp [getRotationMatrix2D, hc, hs]
  have hInv : invertAffine ⟨1, 0, 0, 0, 1, 0⟩ = ⟨1, 0, 0, 0, 1, 0⟩ := by
    norm_num [invertAffine]
  have hrw : rotate T 0 img
      = warpAffine img (getRotationMatrix2D T ((img.width / 2 : ℕ) : ℚ)
          ((img.height / 2 : ℕ) : ℚ) 0 1) img.width img.height := by
    simp only [rotate]
    rw [ht, hres, h0]
  refine ⟨ht, hres, ?_⟩
  rw [hrw, hM]
  refine ⟨rfl, rfl, ?_⟩
  intro i j ch hi hj
  simp only [warpAffine] at hi hj ⊢
  rw [hInv]
  simp [sample, Int.floor_natCast, pxAt, hi, hj, Int.toNat_natCast]

/-- Witness for `rotate_zero_identity` at the concrete trigonometry
`trig0` and image `img23`. -/
theorem rotate_zero_identity_witness :
    trig0.cos 0 = 1 ∧ trig0.sin 0 = 0 ∧
    (turnsFinal 0 = 0 ∧ residual 0 = 0 ∧
      sameImage (rotate trig0 0 img23) img23) :=
  ⟨rfl, rfl, rotate_zero_identity trig0 img23 rfl rfl⟩

end TakePhoto
